import Mathlib

/-!
Shallow embedding of `src/fdb2xml.py` (Firebird .FDB → flat XML exporter) and
proofs of the specification claims about it.

Conventions of the embedding:
* Python `None`-able integer arguments become `Option Int`; Python's
  `x or 0` idiom becomes `Option.getD 0` (both `None` and `0` collapse to `0`,
  which is the same value either way for these integer fields).
* Python's truthiness test `char_length if char_length else field_length`
  (where `char_length = 0` is falsy) is modelled by `truthyLength`.
* Byte strings are `List Nat` (each element a byte value); text is `String`.
* `xml.etree.ElementTree` elements become the inductive tree `XmlNode`
  (tag, ordered attribute list, optional text, children), matching the
  insertion-ordered attribute dictionaries of the Python code.
-/

namespace Fdb2Xml

/-- Models the Python expression `char_length if char_length else field_length`:
`None` and `0` are both falsy, so a character length of `0` falls back to the
raw field length. -/
def truthyLength (char_length : Option Int) (field_length : Int) : Int :=
  match char_length with
  | some c => if c ≠ 0 then c else field_length
  | none => field_length

/-- Embedding of `get_fb_type` from `src/fdb2xml.py` (lines 29-66): maps a
Firebird native type descriptor to a canonical SQL type string. -/
def get_fb_type (field_type : Int) (field_sub_type : Option Int)
    (field_length : Int) (field_precision : Option Int)
    (field_scale : Option Int) (char_length : Option Int) : String :=
  let sub := field_sub_type.getD 0
  let prec := field_precision.getD 0
  let sc := field_scale.getD 0
  if (field_type = 7 ∨ field_type = 8 ∨ field_type = 16) ∧ (sub = 1 ∨ sub = 2) then
    (if sub = 1 then "NUMERIC" else "DECIMAL") ++ "(" ++ toString prec ++ ","
      ++ toString (-sc) ++ ")"
  else if field_type = 7 then "SMALLINT"
  else if field_type = 8 then "INTEGER"
  else if field_type = 16 then "BIGINT"
  else if field_type = 10 then "FLOAT"
  else if field_type = 27 then "DOUBLE PRECISION"
  else if field_type = 12 then "DATE"
  else if field_type = 13 then "TIME"
  else if field_type = 35 then "TIMESTAMP"
  else if field_type = 14 then
    "CHAR(" ++ toString (truthyLength char_length field_length) ++ ")"
  else if field_type = 37 ∨ field_type = 40 then
    "VARCHAR(" ++ toString (truthyLength char_length field_length) ++ ")"
  else if field_type = 261 then
    if sub = 0 then "BLOB SUB_TYPE BINARY"
    else if sub = 1 then "BLOB SUB_TYPE TEXT"
    else "BLOB SUB_TYPE " ++ toString sub
  else "VARCHAR(255) /* unknown fb type " ++ toString field_type ++ " */"

example : get_fb_type 7 (some 1) 4 (some 10) (some (-2)) none = "NUMERIC(10,2)" := by
  decide

example : get_fb_type 16 (some 2) 8 none (some (-3)) none = "DECIMAL(0,3)" := by
  decide

example : get_fb_type 14 none 10 none none (some 0) = "CHAR(10)" := by
  decide

example : get_fb_type 37 none 12 none none (some 3) = "VARCHAR(3)" := by
  decide

example : get_fb_type 9 none 0 none none none
    = "VARCHAR(255) /* unknown fb type 9 */" := by decide

/-- C1: for a column descriptor whose type code is one of the integer-like
native codes 7, 8, 16 and whose subtype is 1 or 2, `get_fb_type` returns
`NUMERIC(p,s)` when the subtype is 1 and `DECIMAL(p,s)` when it is 2, where
`p` is the native precision (0 when absent) and `s` is the negation of the
native scale (0 when absent); in particular the result is never the plain
integer mapping (SMALLINT/INTEGER/BIGINT), so this branch takes precedence. -/
theorem numeric_subtype_mapping (field_type field_sub_type field_length : Int)
    (field_precision field_scale char_length : Option Int)
    (hft : field_type = 7 ∨ field_type = 8 ∨ field_type = 16)
    (hst : field_sub_type = 1 ∨ field_sub_type = 2) :
    get_fb_type field_type (some field_sub_type) field_length field_precision
        field_scale char_length
      = (if field_sub_type = 1 then "NUMERIC" else "DECIMAL") ++ "("
        ++ toString (field_precision.getD 0) ++ ","
        ++ toString (-(field_scale.getD 0)) ++ ")" := by
  rcases hst with h | h <;> rcases hft with h2 | h2 | h2 <;> subst h <;> subst h2 <;>
    simp [get_fb_type]

/-- Witness for C1 at type code 8, subtype 1, precision 10, scale -2. -/
theorem numeric_subtype_mapping_witness :
    get_fb_type 8 (some 1) 4 (some 10) (some (-2)) none = "NUMERIC(10,2)" := by
  have h := numeric_subtype_mapping 8 1 4 (some 10) (some (-2)) none
    (by decide) (by decide)
  simpa using h

/-- C4 counterexample: at type code 14 (CHAR) with raw length 10 and a
provided character length of 0, the code emits `CHAR(10)` (the raw storage
length), not `CHAR(0)` as the claim's "character length takes precedence
whenever provided" would require, because the Python truthiness test treats
a provided 0 like an absent value. -/
theorem char_length_zero_counterexample :
    get_fb_type 14 none 10 none none (some 0) = "CHAR(10)" ∧
      get_fb_type 14 none 10 none none (some 0) ≠ "CHAR(0)" := by decide

/-- C4 amended: for every character-bearing descriptor (type codes 14, 37,
40), the length embedded in the type string equals the character length
whenever one is provided and nonzero, and equals the raw storage length
otherwise (when the character length is absent or provided as 0). -/
theorem char_type_length (field_type : Int) (field_sub_type : Option Int)
    (field_length : Int) (field_precision field_scale char_length : Option Int)
    (hft : field_type = 14 ∨ field_type = 37 ∨ field_type = 40) :
    (∀ c : Int, char_length = some c → c ≠ 0 →
      get_fb_type field_type field_sub_type field_length field_precision
          field_scale char_length
        = (if field_type = 14 then "CHAR(" else "VARCHAR(")
          ++ toString c ++ ")") ∧
    ((char_length = none ∨ char_length = some 0) →
      get_fb_type field_type field_sub_type field_length field_precision
          field_scale char_length
        = (if field_type = 14 then "CHAR(" else "VARCHAR(")
          ++ toString field_length ++ ")") := by
  constructor
  · intro c hc hcne
    subst hc
    rcases hft with h | h | h <;> subst h <;>
      simp [get_fb_type, truthyLength, hcne]
  · intro hc
    rcases hft with h | h | h <;> subst h <;> rcases hc with h2 | h2 <;> subst h2 <;>
      simp [get_fb_type, truthyLength]

/-- Witness for the amended C4 at type code 37 with character length 3. -/
theorem char_type_length_witness :
    get_fb_type 37 none 12 none none (some 3)
      = (if (37 : Int) = 14 then "CHAR(" else "VARCHAR(")
        ++ toString (3 : Int) ++ ")" :=
  (char_type_length 37 none 12 none none (some 3) (by decide)).1 3 rfl (by decide)

/-- C6: for every type code not matched by any recognized-type rule,
`get_fb_type` returns the `VARCHAR(255)` fallback string annotated with the
unrecognized type code; being a total function of its integer inputs, the
mapper never fails. -/
theorem unknown_type_fallback (field_type : Int) (field_sub_type : Option Int)
    (field_length : Int) (field_precision field_scale char_length : Option Int)
    (h : ¬ (field_type = 7 ∨ field_type = 8 ∨ field_type = 16 ∨
            field_type = 10 ∨ field_type = 27 ∨ field_type = 12 ∨
            field_type = 13 ∨ field_type = 35 ∨ field_type = 14 ∨
            field_type = 37 ∨ field_type = 40 ∨ field_type = 261)) :
    get_fb_type field_type field_sub_type field_length field_precision
        field_scale char_length
      = "VARCHAR(255) /* unknown fb type " ++ toString field_type ++ " */" := by
  push_neg at h
  obtain ⟨h7, h8, h16, h10, h27, h12, h13, h35, h14, h37, h40, h261⟩ := h
  simp [get_fb_type, h7, h8, h16, h10, h27, h12, h13, h35, h14, h37, h40, h261]

/-- Witness for C6 at the unrecognized type code 999. -/
theorem unknown_type_fallback_witness :
    get_fb_type 999 none 0 none none none
      = "VARCHAR(255) /* unknown fb type 999 */" := by
  have h := unknown_type_fallback 999 none 0 none none none (by decide)
  simpa using h

/-- Helper for `decodeOne`: consume one continuation byte constrained to
`[lo, hi]` and produce a code point from it. -/
def contTail1 (cp : Nat → Nat) (lo hi : Nat) : List Nat → Option (Nat × List Nat)
  | b1 :: r => if lo ≤ b1 ∧ b1 ≤ hi then some (cp b1, r) else none
  | [] => none

/-- Helper for `decodeOne`: consume two continuation bytes, the first
constrained to `[lo, hi]`, the second a standard continuation byte. -/
def contTail2 (cp : Nat → Nat → Nat) (lo hi : Nat) :
    List Nat → Option (Nat × List Nat)
  | b1 :: b2 :: r =>
    if (lo ≤ b1 ∧ b1 ≤ hi) ∧ (0x80 ≤ b2 ∧ b2 ≤ 0xBF) then
      some (cp b1 b2, r)
    else none
  | _ => none

/-- Helper for `decodeOne`: consume three continuation bytes, the first
constrained to `[lo, hi]`, the others standard continuation bytes. -/
def contTail3 (cp : Nat → Nat → Nat → Nat) (lo hi : Nat) :
    List Nat → Option (Nat × List Nat)
  | b1 :: b2 :: b3 :: r =>
    if (lo ≤ b1 ∧ b1 ≤ hi) ∧ (0x80 ≤ b2 ∧ b2 ≤ 0xBF) ∧ (0x80 ≤ b3 ∧ b3 ≤ 0xBF) then
      some (cp b1 b2 b3, r)
    else none
  | _ => none

/-- Decode one character of strict UTF-8 (the semantics of CPython's
`bytes.decode("utf-8")`, RFC 3629): returns the code point and the remaining
bytes, or `none` on an invalid sequence.  Overlong forms, surrogates
(U+D800..U+DFFF) and code points above U+10FFFF are rejected, exactly as the
strict decoder does. -/
def decodeOne : List Nat → Option (Nat × List Nat)
  | [] => none
  | b0 :: rest =>
    if b0 ≤ 0x7F then some (b0, rest)
    else if 0xC2 ≤ b0 ∧ b0 ≤ 0xDF then
      contTail1 (fun b1 => (b0 - 0xC0) * 0x40 + (b1 - 0x80)) 0x80 0xBF rest
    else if b0 = 0xE0 then
      contTail2 (fun b1 b2 => (b1 - 0x80) * 0x40 + (b2 - 0x80)) 0xA0 0xBF rest
    else if (0xE1 ≤ b0 ∧ b0 ≤ 0xEC) ∨ (0xEE ≤ b0 ∧ b0 ≤ 0xEF) then
      contTail2 (fun b1 b2 =>
        (b0 - 0xE0) * 0x1000 + (b1 - 0x80) * 0x40 + (b2 - 0x80)) 0x80 0xBF rest
    else if b0 = 0xED then
      contTail2 (fun b1 b2 => 0xD000 + (b1 - 0x80) * 0x40 + (b2 - 0x80)) 0x80 0x9F rest
    else if b0 = 0xF0 then
      contTail3 (fun b1 b2 b3 =>
        (b1 - 0x80) * 0x1000 + (b2 - 0x80) * 0x40 + (b3 - 0x80)) 0x90 0xBF rest
    else if 0xF1 ≤ b0 ∧ b0 ≤ 0xF3 then
      contTail3 (fun b1 b2 b3 =>
        (b0 - 0xF0) * 0x40000 + (b1 - 0x80) * 0x1000 + (b2 - 0x80) * 0x40
          + (b3 - 0x80)) 0x80 0xBF rest
    else if b0 = 0xF4 then
      contTail3 (fun b1 b2 b3 =>
        0x100000 + (b1 - 0x80) * 0x1000 + (b2 - 0x80) * 0x40 + (b3 - 0x80))
        0x80 0x8F rest
    else none

theorem contTail1_length (cp : Nat → Nat) (lo hi : Nat) (t : List Nat)
    (c : Nat) (r : List Nat) (h : contTail1 cp lo hi t = some (c, r)) :
    r.length < t.length := by
  cases t with
  | nil => exact Option.noConfusion h
  | cons b1 r1 =>
    simp only [contTail1] at h
    split at h
    · simp only [Option.some.injEq, Prod.mk.injEq] at h
      obtain ⟨-, rfl⟩ := h
      simp
    · exact Option.noConfusion h

theorem contTail2_length (cp : Nat → Nat → Nat) (lo hi : Nat) (t : List Nat)
    (c : Nat) (r : List Nat) (h : contTail2 cp lo hi t = some (c, r)) :
    r.length < t.length := by
  cases t with
  | nil => exact Option.noConfusion h
  | cons b1 t1 =>
    cases t1 with
    | nil => exact Option.noConfusion h
    | cons b2 r2 =>
      simp only [contTail2] at h
      split at h
      · simp only [Option.some.injEq, Prod.mk.injEq] at h
        obtain ⟨-, rfl⟩ := h
        simp
        omega
      · exact Option.noConfusion h

theorem contTail3_length (cp : Nat → Nat → Nat → Nat) (lo hi : Nat)
    (t : List Nat) (c : Nat) (r : List Nat)
    (h : contTail3 cp lo hi t = some (c, r)) : r.length < t.length := by
  cases t with
  | nil => exact Option.noConfusion h
  | cons b1 t1 =>
    cases t1 with
    | nil => exact Option.noConfusion h
    | cons b2 t2 =>
      cases t2 with
      | nil => exact Option.noConfusion h
      | cons b3 r3 =>
        simp only [contTail3] at h
        split at h
        · simp only [Option.some.injEq, Prod.mk.injEq] at h
          obtain ⟨-, rfl⟩ := h
          simp
          omega
        · exact Option.noConfusion h

theorem decodeOne_length_lt (l : List Nat) (c : Nat) (r : List Nat)
    (h : decodeOne l = some (c, r)) : r.length < l.length := by
  cases l with
  | nil => exact Option.noConfusion h
  | cons b0 rest =>
    simp only [decodeOne] at h
    split_ifs at h
    · simp only [Option.some.injEq, Prod.mk.injEq] at h
      obtain ⟨-, rfl⟩ := h
      simp
    all_goals
      first
      | exact Nat.lt_succ_of_lt (contTail1_length _ _ _ _ _ _ h)
      | exact Nat.lt_succ_of_lt (contTail2_length _ _ _ _ _ _ h)
      | exact Nat.lt_succ_of_lt (contTail3_length _ _ _ _ _ _ h)

/-- Fuel-driven driver for the UTF-8 decoder; `utf8Decode` supplies the list
length as fuel, which always suffices because `decodeOne` consumes at least
one byte. -/
def utf8DecodeFuel : Nat → List Nat → Option (List Nat)
  | _, [] => some []
  | 0, _ :: _ => none
  | fuel + 1, b0 :: rest =>
    match decodeOne (b0 :: rest) with
    | some (c, r) => (utf8DecodeFuel fuel r).map (fun cs => c :: cs)
    | none => none

/-- Embedding of strict UTF-8 decoding of a byte string into a list of code
points (`bytes.decode("utf-8")` in `safe_str` and `xml_col`): `none` exactly
when the Python call raises `UnicodeDecodeError`. -/
def utf8Decode (l : List Nat) : Option (List Nat) :=
  utf8DecodeFuel l.length l

theorem utf8DecodeFuel_congr (fuel1 fuel2 : Nat) (l : List Nat)
    (h1 : l.length ≤ fuel1) (h2 : l.length ≤ fuel2) :
    utf8DecodeFuel fuel1 l = utf8DecodeFuel fuel2 l := by
  induction fuel1 generalizing fuel2 l with
  | zero =>
    cases l with
    | nil => cases fuel2 <;> rfl
    | cons b0 rest => simp at h1
  | succ n ih =>
    cases l with
    | nil => cases fuel2 <;> rfl
    | cons b0 rest =>
      cases fuel2 with
      | zero => simp at h2
      | succ m =>
        simp only [utf8DecodeFuel]
        cases hd : decodeOne (b0 :: rest) with
        | none => rfl
        | some p =>
          obtain ⟨c, r⟩ := p
          have hlt := decodeOne_length_lt _ _ _ hd
          simp only [List.length_cons] at hlt h1 h2
          dsimp only
          rw [ih m r (by omega) (by omega)]

theorem utf8Decode_nil : utf8Decode [] = some [] := rfl

/-- One decoding step: if `decodeOne` succeeds, `utf8Decode` prepends the
decoded code point to the decoding of the remainder. -/
theorem utf8Decode_step (b0 : Nat) (rest : List Nat) (c : Nat) (r : List Nat)
    (h : decodeOne (b0 :: rest) = some (c, r)) :
    utf8Decode (b0 :: rest) = (utf8Decode r).map (fun cs => c :: cs) := by
  have hlt := decodeOne_length_lt _ _ _ h
  simp only [List.length_cons] at hlt
  unfold utf8Decode
  simp only [List.length_cons, utf8DecodeFuel, h]
  rw [utf8DecodeFuel_congr rest.length r.length r (by omega) le_rfl]

/-- If `decodeOne` fails on a nonempty list, the whole decode fails. -/
theorem utf8Decode_stuck (b0 : Nat) (rest : List Nat)
    (h : decodeOne (b0 :: rest) = none) : utf8Decode (b0 :: rest) = none := by
  unfold utf8Decode
  simp only [List.length_cons, utf8DecodeFuel, h]

example : utf8Decode [0x68, 0x65, 0x6C, 0x6C, 0x6F]
    = some [0x68, 0x65, 0x6C, 0x6C, 0x6F] := by decide

example : utf8Decode [0xFF, 0xFE] = none := by decide

example : utf8Decode [0xC3, 0xA9] = some [0xE9] := by decide

example : utf8Decode [0xE2, 0x82, 0xAC] = some [0x20AC] := by decide

example : utf8Decode [0xF0, 0x9F, 0x98, 0x80] = some [0x1F600] := by decide

example : utf8Decode [0xC0, 0xAF] = none := by decide

example : utf8Decode [0xE0, 0x9F, 0xBF] = none := by decide

example : utf8Decode [0xED, 0xA0, 0x80] = none := by decide

example : utf8Decode [0xF4, 0x90, 0x80, 0x80] = none := by decide

example : utf8Decode [0xC3] = none := by decide

/-- Structural characterization of valid strict UTF-8 byte sequences,
independent of the decoder: a concatenation of well-formed 1-4 byte
character encodings, with overlong forms and surrogates excluded byte-wise
(RFC 3629 table). -/
inductive Utf8Valid : List Nat → Prop where
  | nil : Utf8Valid []
  | ascii (b0 : Nat) (r : List Nat) :
      b0 ≤ 0x7F → Utf8Valid r → Utf8Valid (b0 :: r)
  | two (b0 b1 : Nat) (r : List Nat) :
      0xC2 ≤ b0 → b0 ≤ 0xDF → 0x80 ≤ b1 → b1 ≤ 0xBF → Utf8Valid r →
      Utf8Valid (b0 :: b1 :: r)
  | threeLow (b1 b2 : Nat) (r : List Nat) :
      0xA0 ≤ b1 → b1 ≤ 0xBF → 0x80 ≤ b2 → b2 ≤ 0xBF → Utf8Valid r →
      Utf8Valid (0xE0 :: b1 :: b2 :: r)
  | threeMid (b0 b1 b2 : Nat) (r : List Nat) :
      (0xE1 ≤ b0 ∧ b0 ≤ 0xEC) ∨ (0xEE ≤ b0 ∧ b0 ≤ 0xEF) →
      0x80 ≤ b1 → b1 ≤ 0xBF → 0x80 ≤ b2 → b2 ≤ 0xBF → Utf8Valid r →
      Utf8Valid (b0 :: b1 :: b2 :: r)
  | threeEd (b1 b2 : Nat) (r : List Nat) :
      0x80 ≤ b1 → b1 ≤ 0x9F → 0x80 ≤ b2 → b2 ≤ 0xBF → Utf8Valid r →
      Utf8Valid (0xED :: b1 :: b2 :: r)
  | fourLow (b1 b2 b3 : Nat) (r : List Nat) :
      0x90 ≤ b1 → b1 ≤ 0xBF → 0x80 ≤ b2 → b2 ≤ 0xBF → 0x80 ≤ b3 → b3 ≤ 0xBF →
      Utf8Valid r → Utf8Valid (0xF0 :: b1 :: b2 :: b3 :: r)
  | fourMid (b0 b1 b2 b3 : Nat) (r : List Nat) :
      0xF1 ≤ b0 → b0 ≤ 0xF3 → 0x80 ≤ b1 → b1 ≤ 0xBF → 0x80 ≤ b2 → b2 ≤ 0xBF →
      0x80 ≤ b3 → b3 ≤ 0xBF → Utf8Valid r →
      Utf8Valid (b0 :: b1 :: b2 :: b3 :: r)
  | fourHigh (b1 b2 b3 : Nat) (r : List Nat) :
      0x80 ≤ b1 → b1 ≤ 0x8F → 0x80 ≤ b2 → b2 ≤ 0xBF → 0x80 ≤ b3 → b3 ≤ 0xBF →
      Utf8Valid r → Utf8Valid (0xF4 :: b1 :: b2 :: b3 :: r)

theorem contTail1_inv (cp : Nat → Nat) (lo hi : Nat) (t : List Nat) (c : Nat)
    (r : List Nat) (h : contTail1 cp lo hi t = some (c, r)) :
    ∃ b1, t = b1 :: r ∧ lo ≤ b1 ∧ b1 ≤ hi ∧ c = cp b1 := by
  cases t with
  | nil => exact Option.noConfusion h
  | cons b1 r1 =>
    simp only [contTail1] at h
    split at h
    · rename_i hcond
      simp only [Option.some.injEq, Prod.mk.injEq] at h
      obtain ⟨hc, rfl⟩ := h
      exact ⟨b1, rfl, hcond.1, hcond.2, hc.symm⟩
    · exact Option.noConfusion h

theorem contTail2_inv (cp : Nat → Nat → Nat) (lo hi : Nat) (t : List Nat)
    (c : Nat) (r : List Nat) (h : contTail2 cp lo hi t = some (c, r)) :
    ∃ b1 b2, t = b1 :: b2 :: r ∧ (lo ≤ b1 ∧ b1 ≤ hi) ∧
      (0x80 ≤ b2 ∧ b2 ≤ 0xBF) ∧ c = cp b1 b2 := by
  cases t with
  | nil => exact Option.noConfusion h
  | cons b1 t1 =>
    cases t1 with
    | nil => exact Option.noConfusion h
    | cons b2 r2 =>
      simp only [contTail2] at h
      split at h
      · rename_i hcond
        simp only [Option.some.injEq, Prod.mk.injEq] at h
        obtain ⟨hc, rfl⟩ := h
        exact ⟨b1, b2, rfl, hcond.1, hcond.2, hc.symm⟩
      · exact Option.noConfusion h

theorem contTail3_inv (cp : Nat → Nat → Nat → Nat) (lo hi : Nat) (t : List Nat)
    (c : Nat) (r : List Nat) (h : contTail3 cp lo hi t = some (c, r)) :
    ∃ b1 b2 b3, t = b1 :: b2 :: b3 :: r ∧ (lo ≤ b1 ∧ b1 ≤ hi) ∧
      (0x80 ≤ b2 ∧ b2 ≤ 0xBF) ∧ (0x80 ≤ b3 ∧ b3 ≤ 0xBF) ∧ c = cp b1 b2 b3 := by
  cases t with
  | nil => exact Option.noConfusion h
  | cons b1 t1 =>
    cases t1 with
    | nil => exact Option.noConfusion h
    | cons b2 t2 =>
      cases t2 with
      | nil => exact Option.noConfusion h
      | cons b3 r3 =>
        simp only [contTail3] at h
        split at h
        · rename_i hcond
          simp only [Option.some.injEq, Prod.mk.injEq] at h
          obtain ⟨hc, rfl⟩ := h
          exact ⟨b1, b2, b3, rfl, hcond.1, hcond.2.1, hcond.2.2, hc.symm⟩
        · exact Option.noConfusion h

/-- A successful `decodeOne` step on a list whose remainder is valid yields a
valid list. -/
theorem utf8Valid_step (b0 : Nat) (rest : List Nat) (c : Nat) (r : List Nat)
    (hd : decodeOne (b0 :: rest) = some (c, r)) (hv : Utf8Valid r) :
    Utf8Valid (b0 :: rest) := by
  simp only [decodeOne] at hd
  split_ifs at hd with hA hB hC hD hE hF hG hH
  · simp only [Option.some.injEq, Prod.mk.injEq] at hd
    obtain ⟨-, rfl⟩ := hd
    exact Utf8Valid.ascii b0 rest hA hv
  · obtain ⟨b1, rfl, h1, h2, -⟩ := contTail1_inv _ _ _ _ _ _ hd
    exact Utf8Valid.two b0 b1 r hB.1 hB.2 h1 h2 hv
  · obtain ⟨b1, b2, rfl, h1, h2, -⟩ := contTail2_inv _ _ _ _ _ _ hd
    subst hC
    exact Utf8Valid.threeLow b1 b2 r h1.1 h1.2 h2.1 h2.2 hv
  · obtain ⟨b1, b2, rfl, h1, h2, -⟩ := contTail2_inv _ _ _ _ _ _ hd
    exact Utf8Valid.threeMid b0 b1 b2 r hD h1.1 h1.2 h2.1 h2.2 hv
  · obtain ⟨b1, b2, rfl, h1, h2, -⟩ := contTail2_inv _ _ _ _ _ _ hd
    subst hE
    exact Utf8Valid.threeEd b1 b2 r h1.1 h1.2 h2.1 h2.2 hv
  · obtain ⟨b1, b2, b3, rfl, h1, h2, h3, -⟩ := contTail3_inv _ _ _ _ _ _ hd
    subst hF
    exact Utf8Valid.fourLow b1 b2 b3 r h1.1 h1.2 h2.1 h2.2 h3.1 h3.2 hv
  · obtain ⟨b1, b2, b3, rfl, h1, h2, h3, -⟩ := contTail3_inv _ _ _ _ _ _ hd
    exact Utf8Valid.fourMid b0 b1 b2 b3 r hG.1 hG.2 h1.1 h1.2 h2.1 h2.2
      h3.1 h3.2 hv
  · obtain ⟨b1, b2, b3, rfl, h1, h2, h3, -⟩ := contTail3_inv _ _ _ _ _ _ hd
    subst hH
    exact Utf8Valid.fourHigh b1 b2 b3 r h1.1 h1.2 h2.1 h2.2 h3.1 h3.2 hv

theorem utf8Valid_of_isSome : ∀ (n : Nat) (l : List Nat), l.length ≤ n →
    (utf8Decode l).isSome → Utf8Valid l := by
  intro n
  induction n with
  | zero =>
    intro l hl _
    cases l with
    | nil => exact Utf8Valid.nil
    | cons b0 rest => simp at hl
  | succ n ih =>
    intro l hl h
    cases l with
    | nil => exact Utf8Valid.nil
    | cons b0 rest =>
      cases hd : decodeOne (b0 :: rest) with
      | none => rw [utf8Decode_stuck _ _ hd] at h; simp at h
      | some p =>
        obtain ⟨c, r⟩ := p
        rw [utf8Decode_step _ _ _ _ hd] at h
        simp at h
        have hlt : r.length < rest.length + 1 := by
          simpa using decodeOne_length_lt _ _ _ hd
        have hl2 : rest.length + 1 ≤ n + 1 := by simpa using hl
        exact utf8Valid_step b0 rest c r hd (ih r (by omega) h)

theorem isSome_of_utf8Valid (l : List Nat) (hv : Utf8Valid l) :
    (utf8Decode l).isSome := by
  induction hv with
  | nil => simp [utf8Decode_nil]
  | ascii b0 r h hr ih =>
    have hd : decodeOne (b0 :: r) = some (b0, r) := by
      simp [decodeOne, h]
    rw [utf8Decode_step _ _ _ _ hd]
    simpa using ih
  | two b0 b1 r h1 h2 h3 h4 hr ih =>
    have hA : ¬ b0 ≤ 0x7F := by omega
    have hd : decodeOne (b0 :: b1 :: r)
        = some ((b0 - 0xC0) * 0x40 + (b1 - 0x80), r) := by
      simp [decodeOne, contTail1, hA, h1, h2, h3, h4]
    rw [utf8Decode_step _ _ _ _ hd]
    simpa using ih
  | threeLow b1 b2 r h1 h2 h3 h4 hr ih =>
    have hd : decodeOne (0xE0 :: b1 :: b2 :: r)
        = some ((b1 - 0x80) * 0x40 + (b2 - 0x80), r) := by
      simp [decodeOne, contTail2, h1, h2, h3, h4]
    rw [utf8Decode_step _ _ _ _ hd]
    simpa using ih
  | threeMid b0 b1 b2 r h h1 h2 h3 h4 hr ih =>
    have hA : ¬ b0 ≤ 0x7F := by omega
    have hB : ¬ (0xC2 ≤ b0 ∧ b0 ≤ 0xDF) := by omega
    have hC : ¬ b0 = 0xE0 := by omega
    have hd : decodeOne (b0 :: b1 :: b2 :: r)
        = some ((b0 - 0xE0) * 0x1000 + (b1 - 0x80) * 0x40 + (b2 - 0x80), r) := by
      simp [decodeOne, contTail2, hA, hB, hC, h, h1, h2, h3, h4]
    rw [utf8Decode_step _ _ _ _ hd]
    simpa using ih
  | threeEd b1 b2 r h1 h2 h3 h4 hr ih =>
    have hd : decodeOne (0xED :: b1 :: b2 :: r)
        = some (0xD000 + (b1 - 0x80) * 0x40 + (b2 - 0x80), r) := by
      simp [decodeOne, contTail2, h1, h2, h3, h4]
    rw [utf8Decode_step _ _ _ _ hd]
    simpa using ih
  | fourLow b1 b2 b3 r h1 h2 h3 h4 h5 h6 hr ih =>
    have hd : decodeOne (0xF0 :: b1 :: b2 :: b3 :: r)
        = some ((b1 - 0x80) * 0x1000 + (b2 - 0x80) * 0x40 + (b3 - 0x80), r) := by
      simp [decodeOne, contTail3, h1, h2, h3, h4, h5, h6]
    rw [utf8Decode_step _ _ _ _ hd]
    simpa using ih
  | fourMid b0 b1 b2 b3 r h1 h2 h3 h4 h5 h6 h7 h8 hr ih =>
    have hA : ¬ b0 ≤ 0x7F := by omega
    have hB : ¬ (0xC2 ≤ b0 ∧ b0 ≤ 0xDF) := by omega
    have hC : ¬ b0 = 0xE0 := by omega
    have hD : ¬ ((0xE1 ≤ b0 ∧ b0 ≤ 0xEC) ∨ (0xEE ≤ b0 ∧ b0 ≤ 0xEF)) := by omega
    have hE : ¬ b0 = 0xED := by omega
    have hF : ¬ b0 = 0xF0 := by omega
    have hd : decodeOne (b0 :: b1 :: b2 :: b3 :: r)
        = some ((b0 - 0xF0) * 0x40000 + (b1 - 0x80) * 0x1000
          + (b2 - 0x80) * 0x40 + (b3 - 0x80), r) := by
      simp [decodeOne, contTail3, hA, hB, hC, hD, hE, hF, h1, h2, h3, h4, h5,
        h6, h7, h8]
    rw [utf8Decode_step _ _ _ _ hd]
    simpa using ih
  | fourHigh b1 b2 b3 r h1 h2 h3 h4 h5 h6 hr ih =>
    have hd : decodeOne (0xF4 :: b1 :: b2 :: b3 :: r)
        = some (0x100000 + (b1 - 0x80) * 0x1000 + (b2 - 0x80) * 0x40
          + (b3 - 0x80), r) := by
      simp [decodeOne, contTail3, h1, h2, h3, h4, h5, h6]
    rw [utf8Decode_step _ _ _ _ hd]
    simpa using ih

/-- The decoder succeeds exactly on the structurally valid UTF-8 byte
sequences. -/
theorem utf8Decode_isSome_iff (l : List Nat) :
    (utf8Decode l).isSome ↔ Utf8Valid l :=
  ⟨utf8Valid_of_isSome l.length l le_rfl, isSome_of_utf8Valid l⟩

/-- The standard base64 alphabet. -/
def b64Table : List Char :=
  "ABCDEFGHIJKLMNOPQRSTUVWXYZabcdefghijklmnopqrstuvwxyz0123456789+/".toList

def b64Char (n : Nat) : Char := b64Table.getD n 'A'

/-- Base64-encode a byte string, three bytes to four alphabet characters,
padded with `=` (the semantics of `base64.b64encode`). -/
def base64Chars : List Nat → List Char
  | [] => []
  | [a] => [b64Char (a / 4), b64Char (a % 4 * 16), '=', '=']
  | [a, b] =>
    [b64Char (a / 4), b64Char (a % 4 * 16 + b / 16), b64Char (b % 16 * 4), '=']
  | a :: b :: c :: rest =>
    b64Char (a / 4) :: b64Char (a % 4 * 16 + b / 16)
      :: b64Char (b % 16 * 4 + c / 64) :: b64Char (c % 64) :: base64Chars rest

def base64Encode (l : List Nat) : String := String.mk (base64Chars l)

example : base64Encode [0xFF, 0xFE] = "//4=" := by decide

example : base64Encode [0x4D, 0x61, 0x6E] = "TWFu" := by decide

/-- The code points Python's `str.isspace` (and thus the no-argument
`str.rstrip`) treats as whitespace. -/
def isPySpace (c : Nat) : Bool :=
  decide (c = 0x20 ∨ (0x9 ≤ c ∧ c ≤ 0xD) ∨ (0x1C ≤ c ∧ c ≤ 0x1F) ∨ c = 0x85 ∨
    c = 0xA0 ∨ c = 0x1680 ∨ (0x2000 ≤ c ∧ c ≤ 0x200A) ∨ c = 0x2028 ∨
    c = 0x2029 ∨ c = 0x202F ∨ c = 0x205F ∨ c = 0x3000)

/-- Embedding of Python's `str.rstrip()`: remove trailing whitespace only. -/
def rstripStr (s : String) : String :=
  String.mk ((s.toList.reverse.dropWhile (fun ch => isPySpace ch.toNat)).reverse)

/-- Convert a list of Unicode code points (as produced by `utf8Decode`) to a
Lean string. -/
def cpToString (cps : List Nat) : String := String.mk (cps.map Char.ofNat)

example : rstripStr "hello  " = "hello" := by decide

example : rstripStr "  a b " = "  a b" := by decide

def pad2 (n : Nat) : String := if n < 10 then "0" ++ toString n else toString n

def pad4 (n : Nat) : String :=
  if n < 10 then "000" ++ toString n
  else if n < 100 then "00" ++ toString n
  else if n < 1000 then "0" ++ toString n
  else toString n

/-- The closed variant of runtime cell values flowing from the row reader
into `safe_str` / `xml_col`: null, integer, exact decimal (carried with its
exact decimal string representation, as `str(Decimal)` preserves it), date,
time, timestamp, text, and binary. -/
inductive Value where
  | null
  | intV (i : Int)
  | decimalV (s : String)
  | dateV (y mo d : Nat)
  | timeV (h mi s : Nat)
  | datetimeV (y mo d h mi s : Nat)
  | textV (s : String)
  | binV (b : List Nat)
deriving DecidableEq

/-- Embedding of `safe_str` from `src/fdb2xml.py` (lines 73-91): format a
cell value as XML text.  `datetime.datetime` is checked before
`datetime.date` in the source (it is a subclass), which the disjoint
constructors reflect. -/
def safe_str : Value → String
  | Value.null => ""
  | Value.datetimeV y mo d h mi s =>
    pad4 y ++ "-" ++ pad2 mo ++ "-" ++ pad2 d ++ " " ++ pad2 h ++ ":"
      ++ pad2 mi ++ ":" ++ pad2 s
  | Value.dateV y mo d => pad4 y ++ "-" ++ pad2 mo ++ "-" ++ pad2 d
  | Value.timeV h mi s => pad2 h ++ ":" ++ pad2 mi ++ ":" ++ pad2 s
  | Value.decimalV s => s
  | Value.binV b =>
    match utf8Decode b with
    | some cps => rstripStr (cpToString cps)
    | none => base64Encode b
  | Value.textV s => rstripStr s
  | Value.intV i => toString i

example : safe_str (Value.datetimeV 2024 3 7 9 5 30) = "2024-03-07 09:05:30" := by
  decide

example : safe_str (Value.decimalV "123.40") = "123.40" := by decide

/-- An `xml.etree.ElementTree` element: tag, insertion-ordered attribute
list, optional text, children. -/
inductive XmlNode where
  | node (tag : String) (attrs : List (String × String)) (text : Option String)
      (children : List XmlNode)

def XmlNode.tag : XmlNode → String
  | XmlNode.node t _ _ _ => t

def XmlNode.attrs : XmlNode → List (String × String)
  | XmlNode.node _ a _ _ => a

def XmlNode.textOf : XmlNode → Option String
  | XmlNode.node _ _ tx _ => tx

def XmlNode.children : XmlNode → List XmlNode
  | XmlNode.node _ _ _ cs => cs

/-- Attribute lookup by key (dictionary access on `elem.attrib`). -/
def XmlNode.getAttr (n : XmlNode) (k : String) : Option String :=
  (n.attrs.find? (fun p => p.1 == k)).map (fun p => p.2)

/-- Embedding of `xml_col` from `src/fdb2xml.py` (lines 273-292): build one
`col` element for a cell.  A null cell gets the `null="true"` attribute and
no text; a bytes cell is UTF-8-decoded and right-stripped on success, or
base64-encoded with `enc="base64"` on failure; any other value is formatted
by `safe_str`. -/
def xml_col (name fb_type : String) (val : Value) : XmlNode :=
  match val with
  | Value.null =>
    XmlNode.node "col" [("name", name), ("type", fb_type), ("null", "true")]
      none []
  | Value.binV b =>
    match utf8Decode b with
    | some cps =>
      XmlNode.node "col" [("name", name), ("type", fb_type)]
        (some (rstripStr (cpToString cps))) []
    | none =>
      XmlNode.node "col" [("name", name), ("type", fb_type), ("enc", "base64")]
        (some (base64Encode b)) []
  | v =>
    XmlNode.node "col" [("name", name), ("type", fb_type)] (some (safe_str v)) []

/-- C3: for every binary value, if the bytes are valid UTF-8 the emitted
`col` element carries the decoded text with trailing whitespace trimmed and
no `enc` attribute; if the bytes are not valid UTF-8 it carries the base64
encoding of the bytes with `enc="base64"`; the decode-success path is taken
only for valid UTF-8 input (validity is the decoder-independent `Utf8Valid`). -/
theorem binary_col_encoding (name fb_type : String) (b : List Nat) :
    (Utf8Valid b →
      ∃ cps, utf8Decode b = some cps ∧
        xml_col name fb_type (Value.binV b)
          = XmlNode.node "col" [("name", name), ("type", fb_type)]
              (some (rstripStr (cpToString cps))) []) ∧
    (¬ Utf8Valid b →
      xml_col name fb_type (Value.binV b)
        = XmlNode.node "col"
            [("name", name), ("type", fb_type), ("enc", "base64")]
            (some (base64Encode b)) []) := by
  constructor
  · intro hv
    obtain ⟨cps, hcps⟩ :=
      Option.isSome_iff_exists.mp (isSome_of_utf8Valid b hv)
    exact ⟨cps, hcps, by simp [xml_col, hcps]⟩
  · intro hv
    have hnone : utf8Decode b = none := by
      cases hub : utf8Decode b with
      | none => rfl
      | some cps =>
        exact absurd (utf8Valid_of_isSome b.length b le_rfl (by simp [hub])) hv
    simp [xml_col, hnone]

/-- Witness for C3: the invalid byte pair `FF FE` is emitted base64-encoded
with the `enc="base64"` marker. -/
theorem binary_col_encoding_witness :
    xml_col "B" "BLOB SUB_TYPE BINARY" (Value.binV [0xFF, 0xFE])
      = XmlNode.node "col"
          [("name", "B"), ("type", "BLOB SUB_TYPE BINARY"), ("enc", "base64")]
          (some (base64Encode [0xFF, 0xFE])) [] :=
  (binary_col_encoding "B" "BLOB SUB_TYPE BINARY" [0xFF, 0xFE]).2
    (fun hv => absurd (isSome_of_utf8Valid _ hv) (by decide))

/-- C5: a null cell is emitted with attribute `null="true"` and no text at
all, while every non-null cell is emitted with some text (possibly empty)
and without the `null` attribute — so a null is structurally distinguishable
from an empty string on re-parse and is never an unmarked empty text. -/
theorem null_col_structural (name fb_type : String) (v : Value) :
    ((xml_col name fb_type Value.null).getAttr "null" = some "true" ∧
      (xml_col name fb_type Value.null).textOf = none) ∧
    (v ≠ Value.null →
      (xml_col name fb_type v).getAttr "null" = none ∧
      (xml_col name fb_type v).textOf ≠ none) := by
  refine ⟨⟨by simp [xml_col, XmlNode.getAttr, XmlNode.attrs], rfl⟩, ?_⟩
  intro hv
  cases v with
  | null => exact absurd rfl hv
  | binV b =>
    cases hub : utf8Decode b with
    | none => simp [xml_col, hub, XmlNode.getAttr, XmlNode.attrs, XmlNode.textOf]
    | some cps =>
      simp [xml_col, hub, XmlNode.getAttr, XmlNode.attrs, XmlNode.textOf]
  | intV i => simp [xml_col, XmlNode.getAttr, XmlNode.attrs, XmlNode.textOf]
  | decimalV s => simp [xml_col, XmlNode.getAttr, XmlNode.attrs, XmlNode.textOf]
  | dateV y mo d => simp [xml_col, XmlNode.getAttr, XmlNode.attrs, XmlNode.textOf]
  | timeV h mi s => simp [xml_col, XmlNode.getAttr, XmlNode.attrs, XmlNode.textOf]
  | datetimeV y mo d h mi s =>
    simp [xml_col, XmlNode.getAttr, XmlNode.attrs, XmlNode.textOf]
  | textV s => simp [xml_col, XmlNode.getAttr, XmlNode.attrs, XmlNode.textOf]

/-- Witness for C5 at a non-null integer cell. -/
theorem null_col_structural_witness :
    (xml_col "A" "INTEGER" (Value.intV 1)).getAttr "null" = none ∧
    (xml_col "A" "INTEGER" (Value.intV 1)).textOf ≠ none :=
  (null_col_structural "A" "INTEGER" (Value.intV 1)).2 (by decide)

/-- A column descriptor as stored by `get_table_columns`: name, the canonical
type string already computed by `get_fb_type`, and the not-null flag. -/
structure Column where
  name : String
  fb_type : String
  not_null : Bool
deriving DecidableEq

/-- A foreign-key descriptor as returned by `get_foreign_keys`. -/
structure ForeignKey where
  name : String
  column : String
  ref_table : String
  ref_column : String
deriving DecidableEq

/-- A generator snapshot as returned by `get_generators`. -/
structure Generator where
  name : String
  value : Int
deriving DecidableEq

/-- Everything `generate_xml` consumes about one table: its catalog metadata
and its rows (each row an insertion-ordered name-to-value mapping). -/
structure TableInput where
  name : String
  columns : List Column
  pk : List String
  fks : List ForeignKey
  rows : List (List (String × Value))
deriving DecidableEq

/-- The fixed input of one `generate_xml` run: source file base name, the
timestamp taken at assembly start, the generator list, and the tables in
enumeration order (the iteration order of the `data` dict). -/
structure Catalog where
  source : String
  now : String
  generators : List Generator
  tables : List TableInput
deriving DecidableEq

/-- Embedding of `row.get(col["name"])`: dictionary lookup that yields
Python `None` (here `Value.null`) when the key is missing. -/
def rowGet (row : List (String × Value)) (name : String) : Value :=
  match row.find? (fun p => p.1 == name) with
  | some p => p.2
  | none => Value.null

/-- One `column` element of the schema section (lines 321-327): attributes
`name`, `type`, then `notnull="true"` when flagged, then `pk="true"` when
the column belongs to the primary key. -/
def xml_schema_column (pk_cols : List String) (c : Column) : XmlNode :=
  XmlNode.node "column"
    (([("name", c.name), ("type", c.fb_type)]
      ++ (if c.not_null then [("notnull", "true")] else []))
      ++ (if pk_cols.contains c.name then [("pk", "true")] else []))
    none []

/-- One `fk` element of the schema section (lines 329-333). -/
def xml_fk (fk : ForeignKey) : XmlNode :=
  XmlNode.node "fk"
    [("name", fk.name), ("column", fk.column),
     ("references", fk.ref_table ++ "(" ++ fk.ref_column ++ ")")]
    none []

/-- One table block of the schema section: columns in declared order, then
foreign keys. -/
def xml_table_schema (t : TableInput) : XmlNode :=
  XmlNode.node "table" [("name", t.name)] none
    (t.columns.map (xml_schema_column t.pk) ++ t.fks.map xml_fk)

/-- One `generator` element (line 312). -/
def xml_generator (g : Generator) : XmlNode :=
  XmlNode.node "generator" [("name", g.name), ("value", toString g.value)]
    none []

/-- The `schema` section (lines 306-333): the `generators` element is built
only when the generator list is nonempty (`if generators:`), then one table
block per table. -/
def xml_schema (cat : Catalog) : XmlNode :=
  XmlNode.node "schema" [] none
    ((if cat.generators.isEmpty then []
      else [XmlNode.node "generators" [] none
              (cat.generators.map xml_generator)])
      ++ cat.tables.map xml_table_schema)

/-- One `row` element (lines 342-344): one `col` per schema column, iterated
in the table's declared column order, values looked up by column name. -/
def xml_row (columns : List Column) (row : List (String × Value)) : XmlNode :=
  XmlNode.node "row" [] none
    (columns.map (fun c => xml_col c.name c.fb_type (rowGet row c.name)))

/-- One table block of the data section (lines 338-344): attributes `name`
and `count` (the number of rows), then the row elements. -/
def xml_table_data (t : TableInput) : XmlNode :=
  XmlNode.node "table" [("name", t.name), ("count", toString t.rows.length)]
    none (t.rows.map (xml_row t.columns))

/-- The `data` section (lines 336-344). -/
def xml_data (cat : Catalog) : XmlNode :=
  XmlNode.node "data" [] none (cat.tables.map xml_table_data)

/-- Embedding of the tree built by `generate_xml` (lines 295-346): root
`database` with `source` and `exported` attributes, one `schema` section and
one `data` section. -/
def generate_xml (cat : Catalog) : XmlNode :=
  XmlNode.node "database" [("source", cat.source), ("exported", cat.now)]
    none [xml_schema cat, xml_data cat]

theorem xml_col_getAttr_name (n ty : String) (v : Value) :
    (xml_col n ty v).getAttr "name" = some n := by
  cases v
  case binV b =>
    cases hub : utf8Decode b <;>
      simp [xml_col, hub, XmlNode.getAttr, XmlNode.attrs]
  all_goals simp [xml_col, XmlNode.getAttr, XmlNode.attrs]

theorem xml_col_null_flag (n ty : String) :
    (xml_col n ty Value.null).getAttr "null" = some "true" := by
  simp [xml_col, XmlNode.getAttr, XmlNode.attrs]

theorem xml_schema_column_getAttr_name (pk_cols : List String) (c : Column) :
    (xml_schema_column pk_cols c).getAttr "name" = some c.name := by
  by_cases h1 : c.not_null <;> by_cases h2 : pk_cols.contains c.name <;>
    simp [xml_schema_column, XmlNode.getAttr, XmlNode.attrs, h1, h2]

/-- The table blocks of the schema section, in order. -/
def schemaTables (cat : Catalog) : List XmlNode :=
  (xml_schema cat).children.filter (fun n => n.tag == "table")

theorem filter_table_map (ts : List TableInput) :
    (ts.map xml_table_schema).filter (fun n => n.tag == "table")
      = ts.map xml_table_schema := by
  rw [List.filter_eq_self]
  intro a ha
  obtain ⟨t, ht, rfl⟩ := List.mem_map.mp ha
  simp [xml_table_schema, XmlNode.tag]

theorem schemaTables_eq (cat : Catalog) :
    schemaTables cat = cat.tables.map xml_table_schema := by
  unfold schemaTables xml_schema
  cases hg : cat.generators with
  | nil => simpa [XmlNode.children] using filter_table_map cat.tables
  | cons g gs =>
    simp [XmlNode.children, XmlNode.tag, List.filter_append, filter_table_map]
    intro a ha
    simp [xml_table_schema]

theorem filter_column_children (t : TableInput) :
    (xml_table_schema t).children.filter (fun n => n.tag == "column")
      = t.columns.map (xml_schema_column t.pk) := by
  rw [xml_table_schema]
  simp only [XmlNode.children, List.filter_append]
  have h1 : (t.columns.map (xml_schema_column t.pk)).filter
      (fun n => n.tag == "column") = t.columns.map (xml_schema_column t.pk) := by
    rw [List.filter_eq_self]
    intro a ha
    obtain ⟨c, hc, rfl⟩ := List.mem_map.mp ha
    simp [xml_schema_column, XmlNode.tag]
  have h2 : (t.fks.map xml_fk).filter (fun n => n.tag == "column") = [] := by
    rw [List.filter_eq_nil_iff]
    intro a ha
    obtain ⟨fk, hfk, rfl⟩ := List.mem_map.mp ha
    simp [xml_fk, XmlNode.tag]
  rw [h1, h2, List.append_nil]

/-- C2: for the table at position `i`, every row element of the data section
has exactly the schema's column names as its `col` names, in schema order
(the row elements are built from the declared column list, not from the row
mapping's own key order), and a column name missing from the row mapping
yields a null-flagged `col` at that column's position. -/
theorem row_col_order (cat : Catalog) (i : Nat) (t : TableInput)
    (ht : cat.tables[i]? = some t) (tEl sEl : XmlNode)
    (htEl : (xml_data cat).children[i]? = some tEl)
    (hsEl : (schemaTables cat)[i]? = some sEl) :
    tEl.children = t.rows.map (xml_row t.columns)
    ∧ (∀ rowEl ∈ tEl.children,
        rowEl.children.map (fun c => c.getAttr "name")
          = (sEl.children.filter (fun n => n.tag == "column")).map
              (fun c => c.getAttr "name"))
    ∧ (∀ r ∈ t.rows, ∀ (k : Nat) (c : Column), t.columns[k]? = some c →
        r.find? (fun p => p.1 == c.name) = none →
        ∃ colEl : XmlNode, (xml_row t.columns r).children[k]? = some colEl
          ∧ colEl.getAttr "null" = some "true") := by
  have htEl2 : tEl = xml_table_data t := by
    simp [xml_data, XmlNode.children, List.getElem?_map, ht] at htEl
    exact htEl.symm
  have hsEl2 : sEl = xml_table_schema t := by
    rw [schemaTables_eq] at hsEl
    simp [List.getElem?_map, ht] at hsEl
    exact hsEl.symm
  subst htEl2
  subst hsEl2
  refine ⟨rfl, ?_, ?_⟩
  · intro rowEl hrow
    simp only [xml_table_data, XmlNode.children] at hrow
    obtain ⟨r, hr, rfl⟩ := List.mem_map.mp hrow
    rw [filter_column_children]
    simp only [xml_row, XmlNode.children, List.map_map]
    apply List.map_congr_left
    intro c hc
    simp only [Function.comp_apply]
    rw [xml_col_getAttr_name, xml_schema_column_getAttr_name]
  · intro r hr k c hc hfind
    refine ⟨xml_col c.name c.fb_type (rowGet r c.name), ?_, ?_⟩
    · simp [xml_row, XmlNode.children, List.getElem?_map, hc]
    · have hnull : rowGet r c.name = Value.null := by simp [rowGet, hfind]
      rw [hnull]
      exact xml_col_null_flag _ _

/-- A sample table used by concrete witnesses: two columns, a primary key on
`ID`, no foreign keys, and two rows — the first with its keys out of schema
order, the second missing the `NAME` key. -/
def tW : TableInput :=
  { name := "T"
    columns := [⟨"ID", "INTEGER", true⟩, ⟨"NAME", "VARCHAR(50)", false⟩]
    pk := ["ID"]
    fks := []
    rows := [[("NAME", Value.textV "Bob "), ("ID", Value.intV 1)],
             [("ID", Value.intV 2)]] }

/-- A sample catalog used by concrete witnesses. -/
def catW : Catalog :=
  { source := "db.fdb", now := "2024-01-01T00:00:00", generators := []
    tables := [tW] }

/-- Witness for C2 on the sample catalog. -/
theorem row_col_order_witness :
    (xml_table_data tW).children = tW.rows.map (xml_row tW.columns)
    ∧ (∀ rowEl ∈ (xml_table_data tW).children,
        rowEl.children.map (fun c => c.getAttr "name")
          = ((xml_table_schema tW).children.filter
              (fun n => n.tag == "column")).map (fun c => c.getAttr "name"))
    ∧ (∀ r ∈ tW.rows, ∀ (k : Nat) (c : Column), tW.columns[k]? = some c →
        r.find? (fun p => p.1 == c.name) = none →
        ∃ colEl : XmlNode, (xml_row tW.columns r).children[k]? = some colEl
          ∧ colEl.getAttr "null" = some "true") :=
  row_col_order catW 0 tW rfl (xml_table_data tW) (xml_table_schema tW) rfl rfl

/-- C10: for the table at position `i` of the data section, the `count`
attribute equals the number of `row` child elements, which equals the number
of rows read for that table. -/
theorem table_count_attr (cat : Catalog) (i : Nat) (t : TableInput)
    (ht : cat.tables[i]? = some t) (tEl : XmlNode)
    (htEl : (xml_data cat).children[i]? = some tEl) :
    tEl.getAttr "count" = some (toString tEl.children.length)
    ∧ tEl.children.length = t.rows.length := by
  have htEl2 : tEl = xml_table_data t := by
    simp [xml_data, XmlNode.children, List.getElem?_map, ht] at htEl
    exact htEl.symm
  subst htEl2
  constructor
  · simp [xml_table_data, XmlNode.getAttr, XmlNode.attrs, XmlNode.children]
  · simp [xml_table_data, XmlNode.children]

/-- Witness for C10 on the sample catalog. -/
theorem table_count_attr_witness :
    (xml_table_data tW).getAttr "count"
      = some (toString (xml_table_data tW).children.length)
    ∧ (xml_table_data tW).children.length = tW.rows.length :=
  table_count_attr catW 0 tW rfl (xml_table_data tW) rfl

/-- C8: empty catalog metadata leaves no trace in the document — with no
generators there is no `generators` element in the schema section; a column
outside the primary key carries no `pk` attribute; with no foreign keys the
table block contains no `fk` element. -/
theorem empty_metadata_omitted (cat : Catalog) (i : Nat) (t : TableInput)
    (ht : cat.tables[i]? = some t) (sEl : XmlNode)
    (hsEl : (schemaTables cat)[i]? = some sEl) :
    (cat.generators = [] →
      ∀ ch ∈ (xml_schema cat).children, ch.tag ≠ "generators")
    ∧ (∀ c ∈ t.columns, t.pk.contains c.name = false →
        xml_schema_column t.pk c ∈ sEl.children ∧
        (xml_schema_column t.pk c).getAttr "pk" = none)
    ∧ (t.fks = [] → ∀ ch ∈ sEl.children, ch.tag ≠ "fk") := by
  have hsEl2 : sEl = xml_table_schema t := by
    rw [schemaTables_eq] at hsEl
    simp [List.getElem?_map, ht] at hsEl
    exact hsEl.symm
  subst hsEl2
  refine ⟨?_, ?_, ?_⟩
  · intro hg ch hch
    simp only [xml_schema, hg, List.isEmpty_nil, if_pos, XmlNode.children,
      List.nil_append] at hch
    obtain ⟨t2, ht2, rfl⟩ := List.mem_map.mp hch
    simp [xml_table_schema, XmlNode.tag]
  · intro c hc hpk
    constructor
    · simp only [xml_table_schema, XmlNode.children]
      exact List.mem_append_left _ (List.mem_map_of_mem _ hc)
    · have hpk2 : c.name ∉ t.pk := by simpa using hpk
      by_cases h1 : c.not_null <;>
        simp [xml_schema_column, XmlNode.getAttr, XmlNode.attrs, h1, hpk2]
  · intro hfk ch hch
    simp only [xml_table_schema, hfk, List.map_nil, List.append_nil,
      XmlNode.children] at hch
    obtain ⟨c, hc, rfl⟩ := List.mem_map.mp hch
    simp [xml_schema_column, XmlNode.tag]

/-- Witness for C8 on the sample catalog (no generators, no foreign keys,
`NAME` outside the primary key). -/
theorem empty_metadata_omitted_witness :
    (catW.generators = [] →
      ∀ ch ∈ (xml_schema catW).children, ch.tag ≠ "generators")
    ∧ (∀ c ∈ tW.columns, tW.pk.contains c.name = false →
        xml_schema_column tW.pk c ∈ (xml_table_schema tW).children ∧
        (xml_schema_column tW.pk c).getAttr "pk" = none)
    ∧ (tW.fks = [] → ∀ ch ∈ (xml_table_schema tW).children, ch.tag ≠ "fk") :=
  empty_metadata_omitted catW 0 tW rfl (xml_table_schema tW) rfl

/-- ElementTree text escaping (`_escape_cdata`): `&`, `<`, `>`. -/
def escTextChar (c : Char) : List Char :=
  if c = '&' then "&amp;".toList
  else if c = '<' then "&lt;".toList
  else if c = '>' then "&gt;".toList
  else [c]

def escText (s : String) : String := String.mk ((s.toList.map escTextChar).flatten)

/-- ElementTree attribute escaping (`_escape_attrib`): `&`, `<`, `>`, `"`,
carriage return, newline, tab. -/
def escAttrChar (c : Char) : List Char :=
  if c = '&' then "&amp;".toList
  else if c = '<' then "&lt;".toList
  else if c = '>' then "&gt;".toList
  else if c = '"' then "&quot;".toList
  else if c = '\r' then "&#13;".toList
  else if c = '\n' then "&#10;".toList
  else if c = '\t' then "&#09;".toList
  else [c]

def escAttr (s : String) : String := String.mk ((s.toList.map escAttrChar).flatten)

def renderAttrs : List (String × String) → String
  | [] => ""
  | (k, v) :: rest => " " ++ k ++ "=\"" ++ escAttr v ++ "\"" ++ renderAttrs rest

mutual

/-- Deterministic rendering of one element at the given indentation, the
combined effect of `ET.indent(tree, space="  ")` and `tree.write` (lines
346-349): childless elements self-close or hold their text inline; elements
with children put each child on its own line, indented two further spaces. -/
def renderNode (ind : String) : XmlNode → String
  | XmlNode.node tag attrs txt children =>
    match children with
    | [] =>
      match txt with
      | none => ind ++ "<" ++ tag ++ renderAttrs attrs ++ " />"
      | some t => ind ++ "<" ++ tag ++ renderAttrs attrs ++ ">" ++ escText t
          ++ "</" ++ tag ++ ">"
    | c :: cs =>
      ind ++ "<" ++ tag ++ renderAttrs attrs ++ ">\n"
        ++ renderChildren (ind ++ "  ") (c :: cs) ++ "\n" ++ ind ++ "</" ++ tag
        ++ ">"

def renderChildren (ind : String) : List XmlNode → String
  | [] => ""
  | [c] => renderNode ind c
  | c :: c2 :: cs => renderNode ind c ++ "\n" ++ renderChildren ind (c2 :: cs)

end

/-- Serialize a document: XML declaration (UTF-8), then the indented tree. -/
def serializeDoc (root : XmlNode) : String :=
  "<?xml version='1.0' encoding='UTF-8'?>\n" ++ renderNode "" root

/-- Drop the `exported` timestamp attribute from the root element. -/
def stripExported (n : XmlNode) : XmlNode :=
  XmlNode.node n.tag (n.attrs.filter (fun p => p.1 != "exported")) n.textOf
    n.children

/-- C7: with the catalog and row input fixed, the assembled and serialized
document is a pure function of that input — two runs whose only difference
is the `exported` timestamp taken at assembly start produce byte-identical
serialized output once that single root attribute is excluded; nothing else
in the tree depends on the timestamp, and all orderings are those of the
input lists. -/
theorem serialization_reproducible (source now1 now2 : String)
    (gens : List Generator) (tables : List TableInput) :
    serializeDoc (stripExported (generate_xml ⟨source, now1, gens, tables⟩))
      = serializeDoc (stripExported (generate_xml ⟨source, now2, gens, tables⟩)) :=
  rfl

/-- The externally visible steps of `main` relevant to connection handling. -/
inductive MainStep where
  | connect
  | readTables
  | generateXml
  | closeConn
  | report
deriving DecidableEq

/-- Modelling of the body of `main` after a successful connect
(src/fdb2xml.py lines 386-402): plain straight-line statements with no
`try`/`finally` and no context manager around the connection, so an
exception raised by a step propagates and aborts the run, skipping every
later statement (Python exception semantics).  `readOk` and `genOk` say
whether `read_all_tables` and `generate_xml` return normally; the listed
steps are those whose execution begins on that run. -/
def mainSteps (readOk genOk : Bool) : List MainStep :=
  if readOk = false then [MainStep.connect, MainStep.readTables]
  else if genOk = false then
    [MainStep.connect, MainStep.readTables, MainStep.generateXml]
  else
    [MainStep.connect, MainStep.readTables, MainStep.generateXml,
     MainStep.closeConn, MainStep.report]

/-- C9 counterexample: on the run where `generate_xml` raises,
`conn.close()` never executes — `main` acquires the connection without any
scoped construct, so the session is not released on that error path before
the process exits. -/
theorem close_not_guaranteed_counterexample :
    MainStep.closeConn ∉ mainSteps true false := by decide

/-- C9 amended: `conn.close()` runs if and only if both `read_all_tables`
and `generate_xml` return normally; on a path where either raises, the
process terminates without an explicit release of the session (there is no
scoped acquisition or guaranteed-release construct in `main`). -/
theorem close_only_on_success (readOk genOk : Bool) :
    MainStep.closeConn ∈ mainSteps readOk genOk
      ↔ readOk = true ∧ genOk = true := by
  cases readOk <;> cases genOk <;> decide

end Fdb2Xml
